import Mathlib

/-!
# noise-bot: a verification development of `main.go`

The program is a Discord sound bot.  `setupSounds` builds the catalog
(`soundMap`, `soundList`) from the embedded `sounds` tree, `handleMessage`
dispatches one chat message, `findUserVoiceState` looks the author up in the
session state, and `player` is the single playback worker.

External calls (the embedded file system, discordgo, dca) are not part of the
program: their results enter the model as outcomes supplied by the
environment, and every call the program makes is recorded in a trace.
-/

namespace NoiseBot

/-! ## Data model -/

/-- An opus frame, `[]byte`. -/
abbrev Frame := List Nat

/-- The fields of `discordgo.VoiceState` that the program reads. -/
structure VoiceState where
  UserID : String
  GuildID : String
  ChannelID : String
deriving DecidableEq, Repr

/-- The fields of `discordgo.Guild` that the program reads. -/
structure Guild where
  ID : String
  VoiceStates : List VoiceState
deriving DecidableEq, Repr

/-- The part of `discordgo.Session` the program reads: `session.State.Guilds`. -/
structure Session where
  Guilds : List Guild
deriving DecidableEq, Repr

/-- The fields of `discordgo.MessageCreate` that `handleMessage` reads;
`AuthorID` stands for `m.Author.ID`. -/
structure MessageCreate where
  Content : String
  ChannelID : String
  AuthorID : String
  GuildID : String
deriving DecidableEq, Repr

/-- The struct `PlayRequest` of `main.go`. -/
structure PlayRequest where
  soundPath : String
  vs : VoiceState
deriving DecidableEq, Repr

/-- The constant `prefix` of `main.go`. -/
def pfx : String := "!!"

/-! ## findUserVoiceState -/

/-- The inner loop of `findUserVoiceState`: `for _, vs := range guild.VoiceStates`,
returning at the first `vs.UserID == userid`. -/
def findInVoiceStates (userid : String) : List VoiceState → Option VoiceState
  | [] => none
  | vs :: rest => if vs.UserID = userid then some vs else findInVoiceStates userid rest

/-- The outer loop of `findUserVoiceState`: `for _, guild := range session.State.Guilds`;
falling off the end returns `nil`. -/
def findInGuilds (userid : String) : List Guild → Option VoiceState
  | [] => none
  | guild :: rest =>
    match findInVoiceStates userid guild.VoiceStates with
    | some vs => some vs
    | none => findInGuilds userid rest

/-- The function `findUserVoiceState(session, userid, guildid)`; `nil` is `none`.
The parameter `guildid` is never read by the body. -/
def findUserVoiceState (session : Session) (userid _guildid : String) : Option VoiceState :=
  findInGuilds userid session.Guilds

/-- Specification of the lookup in the words of the claim: all voice states in
guild order and then voice-state order within the guild. -/
def allVoiceStates (session : Session) : List VoiceState :=
  session.Guilds.flatMap (fun g => g.VoiceStates)

/-- Specification of the lookup in the words of the claim: the first voice
state of `allVoiceStates` whose `UserID` equals `userid`. -/
def firstMatchSpec (session : Session) (userid : String) : Option VoiceState :=
  (allVoiceStates session).find? (fun vs => decide (vs.UserID = userid))

/-! ## The catalog: setupSounds -/

/-- The globals `soundMap` (a Go map, here its lookup function) and `soundList`. -/
structure Catalog where
  soundMap : String → Option String
  soundList : List String

/-- The globals as `main.go` initialises them: an empty map and an empty slice. -/
def Catalog.empty : Catalog := { soundMap := fun _ => none, soundList := [] }

/-- Assignment `m[k] = v` on a Go map: the key is added or overwritten. -/
def mapSet (m : String → Option String) (k v : String) : String → Option String :=
  fun k' => if k' = k then some v else m k'

/-- One call of the `fs.WalkDirFunc`: its arguments `filepath`, `d` (through
`d.Name()` and `d.IsDir()`) and `err` (`none` is `nil`). -/
structure WalkEntry where
  filepath : String
  name : String
  isDir : Bool
  err : Option String
deriving DecidableEq, Repr

/-- Scan of `path.Ext` over the reversed path: stop at a slash, return from the
last dot of the final element. -/
def extScan : List Char → List Char → Option (List Char)
  | [], _ => none
  | c :: rest, acc =>
    if c = '/' then none
    else if c = '.' then some (c :: acc)
    else extScan rest (c :: acc)

/-- Go's `path.Ext`: the suffix beginning at the final dot in the final
slash-separated element of the path, empty if there is no dot. -/
def pathExt (p : String) : String :=
  match extScan p.data.reverse [] with
  | some l => String.mk l
  | none => ""

/-- The character class `[A-Za-z0-9]` of `cmdRegexp`. -/
def isCmdChar (c : Char) : Bool :=
  ('A' ≤ c && c ≤ 'Z') || ('a' ≤ c && c ≤ 'z') || ('0' ≤ c && c ≤ '9')

/-- The test `cmdRegexp.Match` for `^[A-Za-z0-9]+$`: a non-empty string of
characters of the class. -/
def cmdRegexpMatch (s : String) : Bool :=
  !s.data.isEmpty && s.data.all isCmdChar

/-- The slice `d.Name()[:len(d.Name())-len(ext)]`, on byte positions as in Go. -/
def extlessOf (name ext : String) : String :=
  name.extract 0 ⟨name.utf8ByteSize - ext.utf8ByteSize⟩

/-- Go's `strings.HasPrefix(s, p)`. -/
def hasPrefixStr (s p : String) : Bool :=
  p.data.isPrefixOf s.data

/-- The callback passed to `fs.WalkDir` in `setupSounds`, as a catalog update.
`mimeType` is `mime.TypeByExtension`, which depends on the host's tables. -/
def walkFn (mimeType : String → String) (c : Catalog) (e : WalkEntry) : Catalog :=
  if e.err.isSome then c
  else if e.isDir then c
  else
    let ext := pathExt e.filepath
    let mt := mimeType ext
    if !(hasPrefixStr mt "audio/") then c
    else
      let extless := extlessOf e.name ext
      if !cmdRegexpMatch extless then c
      else
        { soundMap := mapSet c.soundMap (pfx ++ extless) e.filepath
          soundList := c.soundList ++ [extless] }

/-- The function `setupSounds`: the callback never returns an error, so the
walk calls it once per visited entry, in walk order, starting from the empty
globals. -/
def setupSounds (mimeType : String → String) (entries : List WalkEntry) : Catalog :=
  entries.foldl (walkFn mimeType) Catalog.empty

/-- The invariant of the walk: a name is listed exactly when the trigger made
of it is a key of the map, and every key of the map is such a trigger. -/
def CatalogAgrees (c : Catalog) : Prop :=
  (∀ n : String, n ∈ c.soundList ↔ (c.soundMap (pfx ++ n)).isSome = true)
  ∧ (∀ k : String, (c.soundMap k).isSome = true → ∃ n ∈ c.soundList, k = pfx ++ n)

/-! ## The dispatcher: handleMessage -/

/-- The fields of the `discordgo.MessageEmbed` that `handleMessage` builds. -/
structure MessageEmbed where
  Title : String
  Color : Nat
  Description : String
  FooterText : String
deriving DecidableEq, Repr

/-- The effects of one `handleMessage` call, in program order. -/
inductive Action where
  | channelMessageSendEmbed (channelID : String) (embed : MessageEmbed)
  | voiceStateLookup (userid guildid : String)
  | trySend (req : PlayRequest)
deriving DecidableEq, Repr

/-- The embed sent in answer to the help trigger. -/
def helpEmbed (soundList : List String) : MessageEmbed :=
  { Title := "List of sounds"
    Color := 0x2ab7ca
    Description := "`" ++ String.intercalate "` `" soundList ++ "`"
    FooterText := "Send `!!<sound>` to chat to play the sound in your current voice channel." }

/-- The function `handleMessage(s, m)`, returning the effects it performs.
`trySend req` is the statement `select { case reqChan <- req: default: }`. -/
def handleMessage (cat : Catalog) (s : Session) (m : MessageCreate) : List Action :=
  if m.Content = pfx ++ "help" then
    [Action.channelMessageSendEmbed m.ChannelID (helpEmbed cat.soundList)]
  else
    match cat.soundMap m.Content with
    | none => []
    | some path =>
      match findUserVoiceState s m.AuthorID m.GuildID with
      | none => [Action.voiceStateLookup m.AuthorID m.GuildID]
      | some vs =>
        [Action.voiceStateLookup m.AuthorID m.GuildID, Action.trySend { soundPath := path, vs := vs }]

/-- The send attempts among the effects of a `handleMessage` call. -/
def sendAttempts : List Action → List PlayRequest
  | [] => []
  | Action.trySend req :: rest => req :: sendAttempts rest
  | _ :: rest => sendAttempts rest

/-! ## The playback worker: player -/

/-- Identity of a resource handed out by the environment (file handle, voice
connection, encode session). -/
abbrev Handle := Nat

/-- The calls and outputs of `player`, in program order.  A call that hands
out a resource records it (`none` for a failed call); a release call records
the value of the variable it is called on. -/
inductive Event where
  | recv (req : PlayRequest)
  | fsOpen (soundPath : String) (result : Option Handle)
  | channelVoiceJoin (guildID channelID : String) (result : Option Handle)
  | encodeMem (result : Option Handle)
  | newDecoder
  | opusFrame
  | offer (frame : Frame)
  | sent (frame : Frame)
  | logPrint (text : String)
  | fmtPrint (text : String)
  | esCleanup (es : Option Handle)
  | fileClose (file : Option Handle)
  | vcDisconnect (vc : Option Handle)
deriving DecidableEq, Repr

/-- The control points of `player`: the external call the worker is about to
make, or is blocked in. -/
inductive Pc where
  | recv
  | fsOpen
  | channelVoiceJoin
  | encodeMem
  | opusFrame
  | opusSend (frame : Frame)
  | esCleanup
  | fileClose
  | vcDisconnect
deriving DecidableEq, Repr

/-- What the environment answers at a control point. -/
inductive Outcome where
  | request (req : PlayRequest)
  | ok
  | err (e : String)
  | frame (f : Frame)
  | eof
  | decodeErr (e : String)
  | accepted
  | timeout
  | returned
deriving DecidableEq, Repr

/-- The state of `player`: its control point, its local variables `req`,
`file`, `vc`, `es`, the resources currently held open, the next fresh
resource identity and the trace so far. -/
structure Worker where
  pc : Pc
  req : Option PlayRequest
  file : Option Handle
  vc : Option Handle
  es : Option Handle
  openFiles : List Handle
  liveConns : List Handle
  liveEnc : List Handle
  fresh : Handle
  trace : List Event
deriving DecidableEq, Repr

/-- The worker as `go player(s)` starts it: all variables nil, about to
execute `req = <-reqChan`. -/
def Worker.init : Worker :=
  { pc := Pc.recv, req := none, file := none, vc := none, es := none,
    openFiles := [], liveConns := [], liveEnc := [], fresh := 0, trace := [] }

/-- Release of the resource a variable refers to. -/
def release (v : Option Handle) (live : List Handle) : List Handle :=
  match v with
  | some h => live.erase h
  | none => live

/-- One step of `player`: from the control point `s.pc`, the environment's
answer `o` takes the worker to its next control point.  Answers that cannot
occur at the control point give `none`. -/
def step (s : Worker) (o : Outcome) : Option Worker :=
  match s.pc, o with
  -- req = <-reqChan
  | Pc.recv, Outcome.request r =>
    some { s with pc := Pc.fsOpen, req := some r, trace := s.trace ++ [Event.recv r] }
  -- file, err = soundsFS.Open(req.soundPath)
  | Pc.fsOpen, Outcome.ok =>
    match s.req with
    | none => none
    | some r =>
      some { s with pc := Pc.channelVoiceJoin, file := some s.fresh,
                    openFiles := s.fresh :: s.openFiles, fresh := s.fresh + 1,
                    trace := s.trace ++ [Event.fsOpen r.soundPath (some s.fresh)] }
  | Pc.fsOpen, Outcome.err e =>
    match s.req with
    | none => none
    | some r =>
      some { s with pc := Pc.recv, file := none,
                    trace := s.trace ++ [Event.fsOpen r.soundPath none,
                      Event.logPrint ("setupSounds crapped out:" ++ e)] }
  -- vc, err = session.ChannelVoiceJoin(req.vs.GuildID, req.vs.ChannelID, false, true)
  | Pc.channelVoiceJoin, Outcome.ok =>
    match s.req with
    | none => none
    | some r =>
      some { s with pc := Pc.encodeMem, vc := some s.fresh,
                    liveConns := s.fresh :: s.liveConns, fresh := s.fresh + 1,
                    trace := s.trace ++
                      [Event.channelVoiceJoin r.vs.GuildID r.vs.ChannelID (some s.fresh)] }
  | Pc.channelVoiceJoin, Outcome.err e =>
    match s.req with
    | none => none
    | some r =>
      some { s with pc := Pc.recv, vc := none,
                    trace := s.trace ++ [Event.channelVoiceJoin r.vs.GuildID r.vs.ChannelID none,
                      Event.logPrint ("error joining voice channel:" ++ e)] }
  -- es, err = dca.EncodeMem(file, encodeOptions); dec = dca.NewDecoder(es)
  | Pc.encodeMem, Outcome.ok =>
    some { s with pc := Pc.opusFrame, es := some s.fresh,
                  liveEnc := s.fresh :: s.liveEnc, fresh := s.fresh + 1,
                  trace := s.trace ++ [Event.encodeMem (some s.fresh), Event.newDecoder] }
  | Pc.encodeMem, Outcome.err e =>
    some { s with pc := Pc.opusFrame, es := none,
                  trace := s.trace ++ [Event.encodeMem none,
                    Event.logPrint ("error creating encode session:" ++ e), Event.newDecoder] }
  -- frame, err := dec.OpusFrame()
  | Pc.opusFrame, Outcome.frame f =>
    some { s with pc := Pc.opusSend f, trace := s.trace ++ [Event.opusFrame, Event.offer f] }
  | Pc.opusFrame, Outcome.eof =>
    some { s with pc := Pc.esCleanup, trace := s.trace ++ [Event.opusFrame] }
  | Pc.opusFrame, Outcome.decodeErr e =>
    some { s with pc := Pc.esCleanup,
                  trace := s.trace ++ [Event.opusFrame,
                    Event.fmtPrint ("error getting opus frame:" ++ e)] }
  -- select { case vc.OpusSend <- frame: case <-time.After(time.Second): ...; break }
  | Pc.opusSend f, Outcome.accepted =>
    some { s with pc := Pc.opusFrame, trace := s.trace ++ [Event.sent f] }
  | Pc.opusSend _, Outcome.timeout =>
    some { s with pc := Pc.opusFrame,
                  trace := s.trace ++ [Event.logPrint
                    "connection seems to have crapped out stopping this sound"] }
  -- cleanup(): es.Cleanup(); file.Close(); vc.Disconnect()
  | Pc.esCleanup, Outcome.returned =>
    some { s with pc := Pc.fileClose, liveEnc := release s.es s.liveEnc,
                  trace := s.trace ++ [Event.esCleanup s.es] }
  | Pc.fileClose, Outcome.returned =>
    some { s with pc := Pc.vcDisconnect, openFiles := release s.file s.openFiles,
                  trace := s.trace ++ [Event.fileClose s.file] }
  | Pc.vcDisconnect, Outcome.returned =>
    some { s with pc := Pc.recv, liveConns := release s.vc s.liveConns,
                  trace := s.trace ++ [Event.vcDisconnect s.vc] }
  | _, _ => none

/-- Execution of the worker against a sequence of answers of the environment. -/
def run (s : Worker) : List Outcome → Option Worker
  | [] => some s
  | o :: os =>
    match step s o with
    | some s' => run s' os
    | none => none

/-- The states the worker can reach from its start. -/
def Reachable (s : Worker) : Prop := ∃ os : List Outcome, run Worker.init os = some s

/-- The answer of the sink to one offered frame: `true` when `vc.OpusSend`
accepts it, `false` when the one-second timer fires first. -/
def sinkOutcome (accepts : Bool) : Outcome :=
  if accepts then Outcome.accepted else Outcome.timeout

/-- The answers of the environment while streaming: each frame the decoder
yields, followed by what the sink does with it. -/
def streamOutcomes : List (Frame × Bool) → List Outcome
  | [] => []
  | (f, accepts) :: rest => Outcome.frame f :: sinkOutcome accepts :: streamOutcomes rest

/-- The answer of a fallible call: `none` is a nil error. -/
def callOutcome (err : Option String) : Outcome :=
  match err with
  | none => Outcome.ok
  | some e => Outcome.err e

/-- The answer of `dec.OpusFrame` that ends a finite frame sequence: `none`
is `io.EOF`, `some e` any other error. -/
def endOutcome (err : Option String) : Outcome :=
  match err with
  | none => Outcome.eof
  | some e => Outcome.decodeErr e

/-- The answers of the environment for one request whose open and voice join
succeed: the request, the two successes, the result of `dca.EncodeMem`, a
finite frame sequence with the sink's answers, the end of the sequence, and
the return of the three release calls. -/
def requestOutcomes (r : PlayRequest) (encErr : Option String)
    (frames : List (Frame × Bool)) (decErr : Option String) : List Outcome :=
  [Outcome.request r, Outcome.ok, Outcome.ok, callOutcome encErr]
    ++ streamOutcomes frames
    ++ [endOutcome decErr, Outcome.returned, Outcome.returned, Outcome.returned]

/-- The trace of the streaming loop over frames with the sink's answers, while
the decoder keeps yielding frames. -/
def streamTrace : List (Frame × Bool) → List Event
  | [] => []
  | (f, accepts) :: rest =>
    [Event.opusFrame, Event.offer f,
      if accepts then Event.sent f
      else Event.logPrint "connection seems to have crapped out stopping this sound"]
      ++ streamTrace rest

/-- The frames accepted by `vc.OpusSend`, in trace order. -/
def sentFrames (t : List Event) : List Frame :=
  t.filterMap (fun e => match e with
    | Event.sent f => some f
    | _ => none)

/-- The frames offered to `vc.OpusSend`, in trace order. -/
def offeredFrames (t : List Event) : List Frame :=
  t.filterMap (fun e => match e with
    | Event.offer f => some f
    | _ => none)

/-- The number of calls of `dec.OpusFrame` in a trace. -/
def decoderReads (t : List Event) : Nat := t.count Event.opusFrame

/-- The voice connections handed out by `ChannelVoiceJoin`, in trace order. -/
def joinedConns (t : List Event) : List Handle :=
  t.filterMap (fun e => match e with
    | Event.channelVoiceJoin _ _ (some c) => some c
    | _ => none)

/-- The voice connections on which `Disconnect` was called, in trace order. -/
def disconnectedConns (t : List Event) : List Handle :=
  t.filterMap (fun e => match e with
    | Event.vcDisconnect (some c) => some c
    | _ => none)

/-- The file handles on which `Close` was called, in trace order. -/
def closedFiles (t : List Event) : List Handle :=
  t.filterMap (fun e => match e with
    | Event.fileClose (some h) => some h
    | _ => none)

/-- Whether an event is an output of `log.Print` or `fmt.Print`. -/
def Event.isPrint : Event → Bool
  | Event.logPrint _ => true
  | Event.fmtPrint _ => true
  | _ => false

/-- Whether an event is one of the three release calls of `cleanup`. -/
def Event.isRelease : Event → Bool
  | Event.esCleanup _ => true
  | Event.fileClose _ => true
  | Event.vcDisconnect _ => true
  | _ => false

/-- Whether the worker holds a joined voice connection at a control point:
every point after a successful `ChannelVoiceJoin` up to `vc.Disconnect`. -/
def Pc.afterJoin : Pc → Bool
  | Pc.recv => false
  | Pc.fsOpen => false
  | Pc.channelVoiceJoin => false
  | _ => true

/-- The request of the scenario of the specification: the airhorn sound for a
user in voice channel C1 of guild G1. -/
def airhornRequest : PlayRequest :=
  { soundPath := "sounds/airhorn.mp3",
    vs := { UserID := "U1", GuildID := "G1", ChannelID := "C1" } }

/-- The catalog of the scenario of the specification: the single trigger
`!!airhorn`, resolving to `sounds/airhorn.mp3`. -/
def airhornCatalog : Catalog :=
  { soundMap := mapSet (fun _ => none) "!!airhorn" "sounds/airhorn.mp3",
    soundList := ["airhorn"] }

/-- The session state of the scenario: user U1 sits in voice channel C1 of
guild G1. -/
def airhornSession : Session :=
  { Guilds := [{ ID := "G1", VoiceStates :=
      [{ UserID := "U1", GuildID := "G1", ChannelID := "C1" }] }] }

/-- A chat message of user U1 in text channel T1 of guild G1. -/
def messageOfU1 (content : String) : MessageCreate :=
  { Content := content, ChannelID := "T1", AuthorID := "U1", GuildID := "G1" }

/-- The worker at the head of the streaming loop for the first request, after
a successful open, voice join and `dca.EncodeMem`. -/
def streamingState : Worker :=
  { pc := Pc.opusFrame, req := some airhornRequest, file := some 0, vc := some 1, es := some 2,
    openFiles := [0], liveConns := [1], liveEnc := [2], fresh := 3,
    trace := [Event.recv airhornRequest, Event.fsOpen "sounds/airhorn.mp3" (some 0),
      Event.channelVoiceJoin "G1" "C1" (some 1), Event.encodeMem (some 2), Event.newDecoder] }

/-- The encode session a request works on after `dca.EncodeMem`: a fresh one,
or nil when the call failed. -/
def encodeResult (fresh : Handle) (encErr : Option String) : Option Handle :=
  match encErr with
  | none => some fresh
  | some _ => none

/-- The trace of `dca.EncodeMem` and `dca.NewDecoder`, with the log line of a
failed encode between them. -/
def encodeTrace (fresh : Handle) (encErr : Option String) : List Event :=
  match encErr with
  | none => [Event.encodeMem (some fresh), Event.newDecoder]
  | some e => [Event.encodeMem none,
      Event.logPrint ("error creating encode session:" ++ e), Event.newDecoder]

/-- The trace of the call of `dec.OpusFrame` that ends the frame sequence. -/
def endTrace (decErr : Option String) : List Event :=
  match decErr with
  | none => [Event.opusFrame]
  | some e => [Event.opusFrame, Event.fmtPrint ("error getting opus frame:" ++ e)]

/-- The invariant of the worker: the connections joined so far are those
already disconnected followed by those still live, and the worker holds
exactly the connection in `vc` after a successful join and none before. -/
def WorkerInv (s : Worker) : Prop :=
  joinedConns s.trace = disconnectedConns s.trace ++ s.liveConns
  ∧ (if s.pc.afterJoin = true then ∃ c, s.vc = some c ∧ s.liveConns = [c]
     else s.liveConns = [])

/-- The worker about to call `ChannelVoiceJoin` for a second request, after a
first request that streamed an empty frame sequence and was cleaned up. -/
def secondJoinState : Worker :=
  { pc := Pc.channelVoiceJoin, req := some airhornRequest, file := some 3, vc := some 1,
    es := some 2, openFiles := [3], liveConns := [], liveEnc := [], fresh := 4,
    trace := [Event.recv airhornRequest, Event.fsOpen "sounds/airhorn.mp3" (some 0),
      Event.channelVoiceJoin "G1" "C1" (some 1), Event.encodeMem (some 2), Event.newDecoder,
      Event.opusFrame, Event.esCleanup (some 2), Event.fileClose (some 0),
      Event.vcDisconnect (some 1), Event.recv airhornRequest,
      Event.fsOpen "sounds/airhorn.mp3" (some 3)] }

end NoiseBot

namespace NoiseBot

theorem findInVoiceStates_eq_find (userid : String) (l : List VoiceState) :
    findInVoiceStates userid l = l.find? (fun vs => decide (vs.UserID = userid)) := by
  induction l with
  | nil => rfl
  | cons vs rest ih =>
    by_cases h : vs.UserID = userid
    · simp [findInVoiceStates, h]
    · simp [findInVoiceStates, h, ih]

theorem findInGuilds_eq_find (userid : String) (gs : List Guild) :
    findInGuilds userid gs
      = (gs.flatMap (fun g => g.VoiceStates)).find? (fun vs => decide (vs.UserID = userid)) := by
  induction gs with
  | nil => rfl
  | cons g rest ih =>
    simp only [findInGuilds, List.flatMap_cons, List.find?_append, findInVoiceStates_eq_find]
    cases hg : g.VoiceStates.find? (fun vs => decide (vs.UserID = userid)) with
    | none => simpa using ih
    | some v => simp

theorem findInGuilds_none_iff (userid : String) (gs : List Guild) :
    findInGuilds userid gs = none ↔ ∀ g ∈ gs, ∀ vs ∈ g.VoiceStates, vs.UserID ≠ userid := by
  rw [findInGuilds_eq_find]
  simp only [List.find?_eq_none, List.mem_flatMap, decide_eq_true_eq]
  constructor
  · intro h g hg vs hvs
    exact h vs ⟨g, hg, hvs⟩
  · rintro h vs ⟨g, hg, hvs⟩
    exact h g hg vs hvs

/-- C10: `findUserVoiceState` returns the first voice state, in guild order and
then voice-state order, whose `UserID` is `userid`; it returns nil exactly when
no voice state of any guild has that `UserID`; its result does not depend on
`guildid`; and the voice state it returns can belong to a guild other than the
one passed. -/
theorem findUserVoiceState_first_match (session : Session) (userid guildid : String) :
    findUserVoiceState session userid guildid = firstMatchSpec session userid
    ∧ (findUserVoiceState session userid guildid = none
        ↔ ∀ g ∈ session.Guilds, ∀ vs ∈ g.VoiceStates, vs.UserID ≠ userid)
    ∧ (∀ g2 : String,
        findUserVoiceState session userid g2 = findUserVoiceState session userid guildid)
    ∧ (∃ (session' : Session) (u g : String) (vs : VoiceState),
        findUserVoiceState session' u g = some vs ∧ vs.GuildID ≠ g) := by
  refine ⟨findInGuilds_eq_find userid session.Guilds,
    findInGuilds_none_iff userid session.Guilds, fun _ => rfl, ?_⟩
  refine ⟨{ Guilds := [{ ID := "G1", VoiceStates :=
      [{ UserID := "U1", GuildID := "G1", ChannelID := "C1" }] }] },
    "U1", "G2", { UserID := "U1", GuildID := "G1", ChannelID := "C1" }, ?_, ?_⟩
  · decide
  · decide

theorem sendAttempts_handleMessage (cat : Catalog) (s : Session) (m : MessageCreate) :
    sendAttempts (handleMessage cat s m) =
      if m.Content = pfx ++ "help" then []
      else match cat.soundMap m.Content, findUserVoiceState s m.AuthorID m.GuildID with
        | some path, some vs => [{ soundPath := path, vs := vs }]
        | _, _ => [] := by
  unfold handleMessage
  by_cases hh : m.Content = pfx ++ "help"
  · simp [hh, sendAttempts]
  · simp only [hh, if_false]
    cases hm : cat.soundMap m.Content with
    | none => simp [sendAttempts]
    | some path =>
      cases hv : findUserVoiceState s m.AuthorID m.GuildID with
      | none => simp [sendAttempts]
      | some vs => simp [sendAttempts]

/-- C6, the claim as stated fails: the content `!!help` is not a key of the
empty catalog, yet handling it has a side effect, the chat message with the
help listing. -/
theorem handleMessage_non_key_has_effect :
    Catalog.empty.soundMap (messageOfU1 "!!help").Content = none
    ∧ handleMessage Catalog.empty airhornSession (messageOfU1 "!!help")
        = [Action.channelMessageSendEmbed "T1" (helpEmbed [])]
    ∧ handleMessage Catalog.empty airhornSession (messageOfU1 "!!help") ≠ [] := by
  refine ⟨rfl, ?_, ?_⟩ <;> decide

/-- C6 as amended: `handleMessage` attempts a send on `reqChan` if and only if
the content is not `!!help`, is a key of `soundMap`, and `findUserVoiceState`
finds a voice state for the author; the request offered is then
`PlayRequest{soundMap[content], that voice state}`, offered once; and a content
that is neither `!!help` nor a catalog key causes no effect at all. -/
theorem handleMessage_dispatch (cat : Catalog) (s : Session) (m : MessageCreate) :
    (sendAttempts (handleMessage cat s m) ≠ []
      ↔ m.Content ≠ pfx ++ "help"
        ∧ (∃ path, cat.soundMap m.Content = some path)
        ∧ (∃ vs, findUserVoiceState s m.AuthorID m.GuildID = some vs))
    ∧ (∀ path vs, m.Content ≠ pfx ++ "help" → cat.soundMap m.Content = some path →
        findUserVoiceState s m.AuthorID m.GuildID = some vs →
        sendAttempts (handleMessage cat s m) = [{ soundPath := path, vs := vs }])
    ∧ (m.Content ≠ pfx ++ "help" → cat.soundMap m.Content = none →
        handleMessage cat s m = []) := by
  refine ⟨?_, ?_, ?_⟩
  · rw [sendAttempts_handleMessage]
    by_cases hh : m.Content = pfx ++ "help"
    · simp [hh]
    · cases hm : cat.soundMap m.Content with
      | none => simp [hh]
      | some path =>
        cases hv : findUserVoiceState s m.AuthorID m.GuildID with
        | none => simp [hh]
        | some vs => simp [hh]
  · intro path vs hh hm hv
    rw [sendAttempts_handleMessage]
    simp [hh, hm, hv]
  · intro hh hm
    simp [handleMessage, hh, hm]

/-- Witness for C6: in the scenario of the specification the message
`!!airhorn` of U1 offers exactly `PlayRequest{"sounds/airhorn.mp3", C1 of G1}`,
and the unresolved `!!kazoo` has no effect. -/
theorem handleMessage_dispatch_witness :
    sendAttempts (handleMessage airhornCatalog airhornSession (messageOfU1 "!!airhorn"))
        = [airhornRequest]
    ∧ handleMessage airhornCatalog airhornSession (messageOfU1 "!!kazoo") = [] :=
  ⟨(handleMessage_dispatch airhornCatalog airhornSession (messageOfU1 "!!airhorn")).2.1
      "sounds/airhorn.mp3" { UserID := "U1", GuildID := "G1", ChannelID := "C1" }
      (by decide) (by decide) (by decide),
   (handleMessage_dispatch airhornCatalog airhornSession (messageOfU1 "!!kazoo")).2.2
      (by decide) (by decide)⟩

theorem pfx_append_inj (a b : String) (h : pfx ++ a = pfx ++ b) : a = b := by
  have h' := congrArg String.data h
  simp only [String.data_append] at h'
  exact String.ext (List.append_cancel_left h')

theorem walkFn_agrees (mimeType : String → String) (c : Catalog) (e : WalkEntry)
    (hc : CatalogAgrees c) : CatalogAgrees (walkFn mimeType c e) := by
  unfold walkFn
  split
  · exact hc
  split
  · exact hc
  simp only []
  split
  · exact hc
  split
  · exact hc
  refine ⟨?_, ?_⟩
  · intro n
    simp only [List.mem_append, List.mem_singleton, mapSet]
    by_cases hn : n = extlessOf e.name (pathExt e.filepath)
    · simp [hn]
    · have hne : pfx ++ n ≠ pfx ++ extlessOf e.name (pathExt e.filepath) :=
        fun h => hn (pfx_append_inj _ _ h)
      simp [hn, hne, hc.1 n]
  · intro k hk
    simp only [mapSet] at hk
    by_cases hkk : k = pfx ++ extlessOf e.name (pathExt e.filepath)
    · exact ⟨_, by simp, hkk⟩
    · rw [if_neg hkk] at hk
      obtain ⟨n, hn, hkn⟩ := hc.2 k hk
      exact ⟨n, by simp [hn], hkn⟩

theorem foldl_walkFn_agrees (mimeType : String → String) (entries : List WalkEntry) :
    ∀ c : Catalog, CatalogAgrees c → CatalogAgrees (entries.foldl (walkFn mimeType) c) := by
  induction entries with
  | nil => intro c hc; exact hc
  | cons e rest ih =>
    intro c hc
    exact ih _ (walkFn_agrees mimeType c e hc)

/-- C9: after `setupSounds` has walked any file tree, a name occurs in
`soundList` if and only if `"!!"` followed by the name is a key of `soundMap`,
and every key of `soundMap` is `"!!"` followed by a listed name;
the answer to `!!help` is one embed whose description is the names of
`soundList` joined between backquotes, and handling `!!help` makes no send
attempt on `reqChan`. -/
theorem help_lists_catalog (mimeType : String → String) (entries : List WalkEntry) :
    (∀ n : String, n ∈ (setupSounds mimeType entries).soundList
        ↔ ((setupSounds mimeType entries).soundMap ("!!" ++ n)).isSome = true)
    ∧ (∀ k : String, ((setupSounds mimeType entries).soundMap k).isSome = true →
        ∃ n ∈ (setupSounds mimeType entries).soundList, k = "!!" ++ n)
    ∧ (∀ (s : Session) (channelID authorID guildID : String),
        handleMessage (setupSounds mimeType entries) s
            { Content := "!!help", ChannelID := channelID, AuthorID := authorID,
              GuildID := guildID }
          = [Action.channelMessageSendEmbed channelID
              (helpEmbed (setupSounds mimeType entries).soundList)]
        ∧ (helpEmbed (setupSounds mimeType entries).soundList).Description
          = "`" ++ String.intercalate "` `" (setupSounds mimeType entries).soundList ++ "`"
        ∧ sendAttempts (handleMessage (setupSounds mimeType entries) s
            { Content := "!!help", ChannelID := channelID, AuthorID := authorID,
              GuildID := guildID }) = []) := by
  have h := foldl_walkFn_agrees mimeType entries Catalog.empty
    ⟨by intro n; simp [Catalog.empty], by intro k hk; simp [Catalog.empty] at hk⟩
  refine ⟨h.1, h.2, ?_⟩
  · intro s channelID authorID guildID
    have hh : ("!!help" : String) = pfx ++ "help" := by decide
    refine ⟨?_, rfl, ?_⟩
    · simp [handleMessage, hh]
    · simp [handleMessage, hh, sendAttempts]

/-! ## The playback worker -/

theorem run_append (a b : List Outcome) :
    ∀ s : Worker, run s (a ++ b) = (run s a).bind (fun s' => run s' b) := by
  induction a with
  | nil => intro s; rfl
  | cons o os ih =>
    intro s
    simp only [List.cons_append, run]
    cases step s o with
    | none => rfl
    | some s' => exact ih s'

theorem step_frame (s : Worker) (f : Frame) (hs : s.pc = Pc.opusFrame) :
    step s (Outcome.frame f)
      = some { s with pc := Pc.opusSend f,
                      trace := s.trace ++ [Event.opusFrame, Event.offer f] } := by
  simp [step, hs]

theorem step_sink (s : Worker) (f : Frame) (accepts : Bool) (hs : s.pc = Pc.opusSend f) :
    step s (sinkOutcome accepts)
      = some { s with pc := Pc.opusFrame,
                      trace := s.trace ++ [if accepts then Event.sent f
                        else Event.logPrint
                          "connection seems to have crapped out stopping this sound"] } := by
  cases accepts <;> simp [step, sinkOutcome, hs]

theorem run_stream (frames : List (Frame × Bool)) :
    ∀ s : Worker, s.pc = Pc.opusFrame →
      run s (streamOutcomes frames)
        = some { s with trace := s.trace ++ streamTrace frames } := by
  induction frames with
  | nil =>
    intro s _
    simp [streamOutcomes, streamTrace, run]
  | cons p rest ih =>
    intro s hs
    obtain ⟨f, accepts⟩ := p
    simp only [streamOutcomes, run, step_frame s f hs]
    rw [step_sink _ f accepts rfl]
    simp only []
    rw [ih _ rfl]
    simp [streamTrace, hs]

theorem streamTrace_filter_release (frames : List (Frame × Bool)) :
    (streamTrace frames).filter Event.isRelease = [] := by
  induction frames with
  | nil => rfl
  | cons p rest ih =>
    obtain ⟨f, accepts⟩ := p
    cases accepts <;> simp [streamTrace, Event.isRelease, ih]

theorem streamTrace_clean (frames : List Frame) :
    sentFrames (streamTrace (frames.map (fun f => (f, true)))) = frames
    ∧ offeredFrames (streamTrace (frames.map (fun f => (f, true)))) = frames
    ∧ (streamTrace (frames.map (fun f => (f, true)))).filter Event.isPrint = []
    ∧ decoderReads (streamTrace (frames.map (fun f => (f, true)))) = frames.length := by
  induction frames with
  | nil => simp [streamTrace, sentFrames, offeredFrames, decoderReads]
  | cons f rest ih =>
    obtain ⟨h1, h2, h3, h4⟩ := ih
    simp only [sentFrames, offeredFrames, decoderReads] at h1 h2 h4 ⊢
    refine ⟨?_, ?_, ?_, ?_⟩
    · simp [streamTrace, h1]
    · simp [streamTrace, h2]
    · simp [streamTrace, Event.isPrint, h3]
    · simp [streamTrace, h4, List.count_cons]

/-- C5: from the head of the streaming loop, if the decoder yields the frames
`f1..fN` and then `io.EOF` and the sink accepts every frame, the loop runs to
its end, the frames accepted by `vc.OpusSend` are exactly `f1..fN` in decoder
order, each offered and sent once, `dec.OpusFrame` is called `N + 1` times, and
nothing is printed or logged. -/
theorem stream_clean_forwards_all (s : Worker) (frames : List Frame)
    (hs : s.pc = Pc.opusFrame) :
    ∃ (s' : Worker) (t : List Event),
      run s (streamOutcomes (frames.map (fun f => (f, true))) ++ [Outcome.eof]) = some s'
      ∧ s'.pc = Pc.esCleanup
      ∧ s'.trace = s.trace ++ t
      ∧ sentFrames t = frames
      ∧ offeredFrames t = frames
      ∧ t.filter Event.isPrint = []
      ∧ decoderReads t = frames.length + 1 := by
  obtain ⟨h1, h2, h3, h4⟩ := streamTrace_clean frames
  refine ⟨{ s with pc := Pc.esCleanup,
                   trace := s.trace ++ streamTrace (frames.map (fun f => (f, true)))
                     ++ [Event.opusFrame] },
    streamTrace (frames.map (fun f => (f, true))) ++ [Event.opusFrame], ?_, ?_, ?_,
    ?_, ?_, ?_, ?_⟩
  · rw [run_append, run_stream _ s hs]
    simp [Option.bind, run, step, hs]
  · rfl
  · simp
  · simp only [sentFrames] at h1 ⊢
    simp [h1]
  · simp only [offeredFrames] at h2 ⊢
    simp [h2]
  · simp [h3, Event.isPrint]
  · simp only [decoderReads] at h4 ⊢
    simp [h4]

/-- Witness for C5: two frames and then `io.EOF`, all accepted, from the head
of the streaming loop of the first request. -/
theorem stream_clean_forwards_all_witness :
    streamingState.pc = Pc.opusFrame
    ∧ ∃ (s' : Worker) (t : List Event),
      run streamingState
          (streamOutcomes ([[1, 2], [3]].map (fun f => (f, true))) ++ [Outcome.eof]) = some s'
      ∧ s'.pc = Pc.esCleanup
      ∧ s'.trace = streamingState.trace ++ t
      ∧ sentFrames t = [[1, 2], [3]]
      ∧ offeredFrames t = [[1, 2], [3]]
      ∧ t.filter Event.isPrint = []
      ∧ decoderReads t = [[1, 2], [3]].length + 1 :=
  ⟨rfl, stream_clean_forwards_all streamingState [[1, 2], [3]] rfl⟩

theorem run_request (s : Worker) (r : PlayRequest) (encErr : Option String)
    (frames : List (Frame × Bool)) (decErr : Option String) (hs : s.pc = Pc.recv) :
    run s (requestOutcomes r encErr frames decErr)
      = some { s with
          pc := Pc.recv, req := some r, file := some s.fresh, vc := some (s.fresh + 1),
          es := encodeResult (s.fresh + 2) encErr,
          fresh := match encErr with
            | none => s.fresh + 3
            | some _ => s.fresh + 2,
          trace := s.trace ++ ([Event.recv r, Event.fsOpen r.soundPath (some s.fresh),
              Event.channelVoiceJoin r.vs.GuildID r.vs.ChannelID (some (s.fresh + 1))]
            ++ (encodeTrace (s.fresh + 2) encErr ++ streamTrace frames ++ endTrace decErr)
            ++ [Event.esCleanup (encodeResult (s.fresh + 2) encErr),
              Event.fileClose (some s.fresh), Event.vcDisconnect (some (s.fresh + 1))]) } := by
  unfold requestOutcomes
  rw [run_append, run_append]
  cases encErr with
  | none =>
    simp only [run, step, hs, callOutcome, Option.bind]
    rw [run_stream _ _ rfl]
    cases decErr with
    | none =>
      simp [run, step, endOutcome, release, encodeResult, encodeTrace, endTrace]
    | some e =>
      simp [run, step, endOutcome, release, encodeResult, encodeTrace, endTrace]
  | some e' =>
    simp only [run, step, hs, callOutcome, Option.bind]
    rw [run_stream _ _ rfl]
    cases decErr with
    | none =>
      simp [run, step, endOutcome, release, encodeResult, encodeTrace, endTrace]
    | some e =>
      simp [run, step, endOutcome, release, encodeResult, encodeTrace, endTrace]

/-- C4: for every request whose open and voice join succeed, whatever
`dca.EncodeMem` returns, for every finite frame sequence, every behaviour of the
sink and either end of the sequence (`io.EOF` or a decode error), the worker
gets back to the receive on `reqChan`, and in between it makes the release
calls exactly once, as its last three calls and in the order `es.Cleanup`,
`file.Close`, `vc.Disconnect`, on the file and the connection of this request;
the resources held open are then those held before the request. -/
theorem cleanup_once_in_order (s : Worker) (r : PlayRequest) (encErr : Option String)
    (frames : List (Frame × Bool)) (decErr : Option String) (hs : s.pc = Pc.recv) :
    ∃ (s' : Worker) (mid : List Event),
      run s (requestOutcomes r encErr frames decErr) = some s'
      ∧ s'.pc = Pc.recv
      ∧ s'.trace = s.trace ++ ([Event.recv r, Event.fsOpen r.soundPath (some s.fresh),
            Event.channelVoiceJoin r.vs.GuildID r.vs.ChannelID (some (s.fresh + 1))]
          ++ mid
          ++ [Event.esCleanup s'.es, Event.fileClose (some s.fresh),
            Event.vcDisconnect (some (s.fresh + 1))])
      ∧ mid.filter Event.isRelease = []
      ∧ s'.openFiles = s.openFiles
      ∧ s'.liveConns = s.liveConns
      ∧ s'.liveEnc = s.liveEnc := by
  refine ⟨_, encodeTrace (s.fresh + 2) encErr ++ streamTrace frames ++ endTrace decErr,
    run_request s r encErr frames decErr hs, rfl, rfl, ?_, rfl, rfl, rfl⟩
  simp only [List.filter_append, streamTrace_filter_release]
  cases encErr <;> cases decErr <;> simp [encodeTrace, endTrace, Event.isRelease]

/-- Witness for C4: the first request, with a successful encode, one accepted
frame, one stalled frame and a decode error at the end. -/
theorem cleanup_once_in_order_witness :
    Worker.init.pc = Pc.recv
    ∧ ∃ (s' : Worker) (mid : List Event),
      run Worker.init
          (requestOutcomes airhornRequest none [([1], true), ([2], false)] (some "bad frame"))
        = some s'
      ∧ s'.pc = Pc.recv
      ∧ s'.trace = Worker.init.trace
          ++ ([Event.recv airhornRequest,
              Event.fsOpen airhornRequest.soundPath (some Worker.init.fresh),
              Event.channelVoiceJoin airhornRequest.vs.GuildID airhornRequest.vs.ChannelID
                (some (Worker.init.fresh + 1))]
            ++ mid
            ++ [Event.esCleanup s'.es, Event.fileClose (some Worker.init.fresh),
              Event.vcDisconnect (some (Worker.init.fresh + 1))])
      ∧ mid.filter Event.isRelease = []
      ∧ s'.openFiles = Worker.init.openFiles
      ∧ s'.liveConns = Worker.init.liveConns
      ∧ s'.liveEnc = Worker.init.liveEnc :=
  ⟨rfl, cleanup_once_in_order Worker.init airhornRequest none [([1], true), ([2], false)]
    (some "bad frame") rfl⟩

theorem step_preserves_inv (s s' : Worker) (o : Outcome) (hinv : WorkerInv s)
    (h : step s o = some s') : WorkerInv s' := by
  obtain ⟨h1, h2⟩ := hinv
  unfold step at h
  split at h <;> (try split at h) <;>
    simp only [Option.some.injEq, reduceCtorEq] at h <;> subst h <;>
    simp_all [WorkerInv, Pc.afterJoin, joinedConns, disconnectedConns, release]
  obtain ⟨c, hc, hl⟩ := h2
  simp [hc, hl]

theorem run_preserves_inv (os : List Outcome) :
    ∀ s s' : Worker, WorkerInv s → run s os = some s' → WorkerInv s' := by
  induction os with
  | nil =>
    intro s s' hinv h
    simp only [run, Option.some.injEq] at h
    exact h ▸ hinv
  | cons o rest ih =>
    intro s s' hinv h
    simp only [run] at h
    cases hstep : step s o with
    | none => simp [hstep] at h
    | some s1 =>
      rw [hstep] at h
      exact ih s1 s' (step_preserves_inv s s1 o hinv hstep) h

theorem init_inv : WorkerInv Worker.init := by
  simp [WorkerInv, Worker.init, Pc.afterJoin, joinedConns, disconnectedConns]

/-- C8: in every state the worker can reach, over any sequence of requests and
any outcomes of open, join, encode, decode and send, the voice connections
obtained from `ChannelVoiceJoin` are those already disconnected followed by
those still live, of which there is at most one; and when the worker is about
to call `ChannelVoiceJoin` no connection is live: every connection joined
before has been disconnected. -/
theorem single_live_session (s : Worker) (h : Reachable s) :
    s.liveConns.length ≤ 1
    ∧ joinedConns s.trace = disconnectedConns s.trace ++ s.liveConns
    ∧ (s.pc = Pc.channelVoiceJoin →
        s.liveConns = [] ∧ joinedConns s.trace = disconnectedConns s.trace) := by
  obtain ⟨os, hos⟩ := h
  obtain ⟨h1, h2⟩ := run_preserves_inv os Worker.init s init_inv hos
  refine ⟨?_, h1, ?_⟩
  · by_cases hp : s.pc.afterJoin = true
    · rw [if_pos hp] at h2
      obtain ⟨c, _, hl⟩ := h2
      simp [hl]
    · rw [if_neg hp] at h2
      simp [h2]
  · intro hpc
    have hl : s.liveConns = [] := by
      simpa [hpc, Pc.afterJoin] using h2
    exact ⟨hl, by simpa [hl] using h1⟩


/-- Witness for C8: the worker about to join for a second request is
reachable, and there the one connection joined so far has been disconnected. -/
theorem single_live_session_witness :
    Reachable secondJoinState
    ∧ secondJoinState.liveConns.length ≤ 1
    ∧ joinedConns secondJoinState.trace
        = disconnectedConns secondJoinState.trace ++ secondJoinState.liveConns
    ∧ (secondJoinState.pc = Pc.channelVoiceJoin →
        secondJoinState.liveConns = []
        ∧ joinedConns secondJoinState.trace = disconnectedConns secondJoinState.trace) :=
  ⟨⟨requestOutcomes airhornRequest none [] none ++ [Outcome.request airhornRequest, Outcome.ok],
      by decide⟩,
    single_live_session secondJoinState
      ⟨requestOutcomes airhornRequest none [] none ++ [Outcome.request airhornRequest, Outcome.ok],
        by decide⟩⟩

/-- C1, the code at the failing input: the decoder yields two frames and then
`io.EOF`, the sink lets the first frame time out and accepts the second.  After
the timeout is logged the worker calls `dec.OpusFrame` again, offers the second
frame to `vc.OpusSend` and sends it: the `break` leaves the `select`, not the
loop. -/
theorem stall_does_not_stop_stream :
    (run Worker.init
        [Outcome.request airhornRequest, Outcome.ok, Outcome.ok, Outcome.ok,
          Outcome.frame [1], Outcome.timeout, Outcome.frame [2], Outcome.accepted,
          Outcome.eof, Outcome.returned, Outcome.returned, Outcome.returned]).map
        (fun s => s.trace)
      = some [Event.recv airhornRequest, Event.fsOpen "sounds/airhorn.mp3" (some 0),
          Event.channelVoiceJoin "G1" "C1" (some 1), Event.encodeMem (some 2), Event.newDecoder,
          Event.opusFrame, Event.offer [1],
          Event.logPrint "connection seems to have crapped out stopping this sound",
          Event.opusFrame, Event.offer [2], Event.sent [2],
          Event.opusFrame,
          Event.esCleanup (some 2), Event.fileClose (some 0), Event.vcDisconnect (some 1)] := by
  decide

/-- C2, the code at the failing input: `dca.EncodeMem` fails after a successful
open and voice join.  The error is logged, a decoder is still built over the
failed session and the streaming loop is entered: `dec.OpusFrame` is called
before the release calls, and a frame the decoder yields is forwarded. -/
theorem encode_failure_enters_streaming :
    (run Worker.init
        [Outcome.request airhornRequest, Outcome.ok, Outcome.ok,
          Outcome.err "bad options"]).map (fun s => s.pc)
      = some Pc.opusFrame
    ∧ (run Worker.init
        [Outcome.request airhornRequest, Outcome.ok, Outcome.ok, Outcome.err "bad options",
          Outcome.eof, Outcome.returned, Outcome.returned, Outcome.returned]).map
        (fun s => s.trace)
      = some [Event.recv airhornRequest, Event.fsOpen "sounds/airhorn.mp3" (some 0),
          Event.channelVoiceJoin "G1" "C1" (some 1), Event.encodeMem none,
          Event.logPrint "error creating encode session:bad options", Event.newDecoder,
          Event.opusFrame,
          Event.esCleanup none, Event.fileClose (some 0), Event.vcDisconnect (some 1)]
    ∧ (run Worker.init
        [Outcome.request airhornRequest, Outcome.ok, Outcome.ok, Outcome.err "bad options",
          Outcome.frame [7], Outcome.accepted, Outcome.eof]).map
        (fun s => sentFrames s.trace)
      = some [[7]] := by
  refine ⟨?_, ?_, ?_⟩ <;> decide

/-- C3, the code at the failing input: the open succeeds and the voice join
fails.  The worker is back at the receive on `reqChan` with the file handle it
opened still open: `file.Close` was never called. -/
theorem join_failure_leaks_file :
    (run Worker.init
        [Outcome.request airhornRequest, Outcome.ok, Outcome.err "timeout"]).map
        (fun s => (s.pc, s.openFiles, closedFiles s.trace, s.trace))
      = some (Pc.recv, [0], [],
          [Event.recv airhornRequest, Event.fsOpen "sounds/airhorn.mp3" (some 0),
            Event.channelVoiceJoin "G1" "C1" none,
            Event.logPrint "error joining voice channel:timeout"]) := by
  decide

end NoiseBot
